import Mathlib

/-!
Shallow embedding of `src/products/htmx-blog/app.py` (Flask + SQLite HTMX blog).

Modelling conventions:
* The SQLite `posts` relation is a `Store`: a list of rows in insertion
  (rowid) order plus the next AUTOINCREMENT id.
* Timestamps (`datetime.now().isoformat()` strings, compared by SQLite as
  text, which on ISO strings is chronological order) are modelled as `Nat`;
  each handler that reads the clock takes `now : Nat` as a parameter.
* The template engine (`render_template`) and the Markdown library are
  external collaborators; a rendered template is modelled as a `Fragment`
  value carrying exactly the data the source passes to the template, and the
  Markdown transformer is a function parameter `md : String → String`.
* `flash_message` wraps its message and category in a fixed OOB `<div>`
  skeleton; the fragment is modelled by its two data fields.
* A Flask response is modelled as `Response`: status code, the primary
  fragment (if any), the appended flash fragment (if any), and the
  `HX-Push-Url` header (if any).
* `request.form.get(key, "")` receives `Option String` (absent field =
  `none`) and defaults to `""`.
* Python exceptions that the source does not catch (indexing `None`) are
  modelled by `Option`: a handler that can crash returns `none` there.
-/

namespace HtmxBlog

/-- Python whitespace characters recognised by `str.strip()` / `str.split()`. -/
def isPySpace (c : Char) : Bool :=
  c == ' ' || c == '\t' || c == '\n' || c == '\r' || c == '\x0b' || c == '\x0c'

/-- Python `str.strip()`: remove leading and trailing whitespace. -/
def pyStrip (s : String) : String :=
  String.mk (((s.toList.dropWhile isPySpace).reverse.dropWhile isPySpace).reverse)

/-- Python `str.replace(c, "")` for a single-character pattern: remove every
occurrence of the character. -/
def removeChar (c : Char) (s : String) : String :=
  String.mk (s.toList.filter (fun d => d != c))

/-- Split a character list at every whitespace character (keeping empty
pieces between adjacent separators). -/
def splitChar : List Char → List (List Char)
  | [] => [[]]
  | c :: cs =>
    if isPySpace c then [] :: splitChar cs
    else
      match splitChar cs with
      | [] => [[c]]
      | w :: ws => (c :: w) :: ws

/-- Python `str.split()` (no separator): split at every whitespace character
and drop the empty pieces, leaving the maximal non-whitespace runs. -/
def pySplitChars (l : List Char) : List (List Char) :=
  (splitChar l).filter (fun w => !w.isEmpty)

/-- Python `" ".join(words)`: words joined by single spaces, on character
lists. -/
def joinSpace : List (List Char) → List Char
  | [] => []
  | [w] => w
  | w :: ws => w ++ ' ' :: joinSpace ws

/-- The backquote character (U+0060). -/
def backquote : Char := Char.ofNat 96

/-- `get_post_preview` from the source: strip the four Markdown marker
characters, collapse whitespace via `" ".join(plain.split())`, then truncate
with `"..."` when longer than `max_length`. -/
def get_post_preview (body : String) (max_length : Nat) : String :=
  let plain := removeChar '>' (removeChar backquote (removeChar '*' (removeChar '#' body)))
  let plain2 := String.mk (joinSpace (pySplitChars plain.toList))
  if plain2.length > max_length then plain2.take max_length ++ "..." else plain2

/-- A row of the `posts` relation. -/
structure Post where
  id : Nat
  title : String
  body : String
  created_at : Nat
  updated_at : Nat
deriving Repr, DecidableEq

/-- The `posts` relation: rows in insertion (rowid) order, plus the next
AUTOINCREMENT id. -/
structure Store where
  posts : List Post
  nextId : Nat
deriving Repr, DecidableEq

/-- An OOB flash fragment, by its data: message text and severity class. -/
structure Flash where
  message : String
  category : String
deriving Repr, DecidableEq

/-- `flash_message` from the source (the fixed `<div>` skeleton around the
two data fields is template markup). -/
def flash_message (message : String) (category : String) : Flash :=
  ⟨message, category⟩

/-- A rendered template, by template name and the data passed to it. -/
inductive Fragment where
  | listView : List (Post × String) → Fragment
  | singleView : Post → String → Fragment
  | formView : Option Post → Fragment
  | confirmDeleteView : Post → Fragment
deriving Repr, DecidableEq

/-- A Flask response: status, primary fragment, appended flash fragment,
`HX-Push-Url` header. -/
structure Response where
  status : Nat
  primary : Option Fragment
  flash : Option Flash
  hxPushUrl : Option String
deriving Repr, DecidableEq

/-- Stable descending insertion by `created_at`: a row is placed after every
earlier row whose `created_at` is ≥ its own. -/
def insertPost (p : Post) : List Post → List Post
  | [] => [p]
  | q :: qs => if p.created_at < q.created_at then q :: insertPost p qs else p :: q :: qs

/-- `SELECT * FROM posts ORDER BY created_at DESC`: deterministic stable sort
of the rows (scanned in rowid order) by `created_at` descending. -/
def orderByCreatedAtDesc : List Post → List Post
  | [] => []
  | p :: ps => insertPost p (orderByCreatedAtDesc ps)

/-- The post listing every list-returning handler recomputes from the store. -/
def listPosts (st : Store) : List Post :=
  orderByCreatedAtDesc st.posts

/-- The `posts_with_preview` loop shared by `index`, `create_post` and
`delete_post`: each row paired with `get_post_preview(body)` (default
`max_length=200`). -/
def postsWithPreview (rows : List Post) : List (Post × String) :=
  rows.map (fun p => (p, get_post_preview p.body 200))

/-- `SELECT * FROM posts WHERE id = ? ... fetchone()`. -/
def fetchone (st : Store) (post_id : Nat) : Option Post :=
  st.posts.find? (fun p => p.id == post_id)

/-- `INSERT INTO posts (title, body, created_at, updated_at) VALUES (?,?,?,?)`
with the AUTOINCREMENT id. -/
def insertRow (st : Store) (title body : String) (created updated : Nat) : Store :=
  { posts := st.posts ++ [⟨st.nextId, title, body, created, updated⟩],
    nextId := st.nextId + 1 }

/-- The row update applied by `UPDATE posts SET title=?, body=?, updated_at=?`. -/
def updRow (title body : String) (now : Nat) (p : Post) : Post :=
  { p with title := title, body := body, updated_at := now }

/-- `UPDATE posts SET title=?, body=?, updated_at=? WHERE id = ?`: every row
matching the id is overwritten, all others kept. -/
def updateWhere (post_id : Nat) (title body : String) (now : Nat) (l : List Post) : List Post :=
  l.map (fun q => if q.id == post_id then updRow title body now q else q)

/-- Direct store-level INSERT, modelling only the schema constraints of
`init_db` (`title TEXT NOT NULL, body TEXT NOT NULL`): a NULL title or body
(`none`) is rejected, any strings (empty ones included) are accepted. -/
def storeInsertRaw (st : Store) (title body : Option String) (created updated : Nat) :
    Option Store :=
  match title, body with
  | some t, some b => some (insertRow st t b created updated)
  | _, _ => none

/-- Defensive invariant claimed of the relation: no stored row has an empty
title or body. -/
def noEmptyFields (st : Store) : Prop :=
  ∀ p ∈ st.posts, p.title ≠ "" ∧ p.body ≠ ""

instance (st : Store) : Decidable (noEmptyFields st) := by
  unfold noEmptyFields; infer_instance

/-- `GET /` (`index`): render the full listing with previews. -/
def index (st : Store) : Response :=
  { status := 200,
    primary := some (.listView (postsWithPreview (listPosts st))),
    flash := none,
    hxPushUrl := none }

/-- `GET /posts/new` (`new_post`): render the empty create form. -/
def new_post : Response :=
  { status := 200, primary := some (.formView none), flash := none, hxPushUrl := none }

/-- The 422 validation-failure response shared by `create_post` and
`update_post`. -/
def validationErrorResponse : Response :=
  { status := 422,
    primary := none,
    flash := some (flash_message "Title and body are required." "error"),
    hxPushUrl := none }

/-- The 404 response shared by the id-reading GET handlers. -/
def notFoundResponse : Response :=
  { status := 404,
    primary := none,
    flash := some (flash_message "Post not found." "error"),
    hxPushUrl := none }

/-- `POST /posts` (`create_post`). -/
def create_post (st : Store) (now : Nat) (titleField bodyField : Option String) :
    Response × Store :=
  let title := pyStrip (titleField.getD "")
  let body := pyStrip (bodyField.getD "")
  if title = "" ∨ body = "" then
    (validationErrorResponse, st)
  else
    let st' := insertRow st title body now now
    ({ status := 200,
       primary := some (.listView (postsWithPreview (listPosts st'))),
       flash := some (flash_message "Post created successfully!" "success"),
       hxPushUrl := some "/" }, st')

/-- `GET /posts/<id>` (`view_post`). -/
def view_post (md : String → String) (st : Store) (post_id : Nat) : Response :=
  match fetchone st post_id with
  | none => notFoundResponse
  | some post =>
    { status := 200,
      primary := some (.singleView post (md post.body)),
      flash := none,
      hxPushUrl := none }

/-- `GET /posts/<id>/edit` (`edit_post`). -/
def edit_post (st : Store) (post_id : Nat) : Response :=
  match fetchone st post_id with
  | none => notFoundResponse
  | some post =>
    { status := 200, primary := some (.formView (some post)), flash := none, hxPushUrl := none }

/-- `PUT /posts/<id>` (`update_post`).  After the UPDATE the handler
re-fetches the row and indexes it unconditionally; when the id matched no
row the fetch yields `None` and `post["body"]` raises an uncaught
`TypeError`, modelled as `none`. -/
def update_post (md : String → String) (st : Store) (now : Nat) (post_id : Nat)
    (titleField bodyField : Option String) : Option (Response × Store) :=
  let title := pyStrip (titleField.getD "")
  let body := pyStrip (bodyField.getD "")
  if title = "" ∨ body = "" then
    some (validationErrorResponse, st)
  else
    let st' : Store := { st with posts := updateWhere post_id title body now st.posts }
    match fetchone st' post_id with
    | none => none
    | some post =>
      some ({ status := 200,
              primary := some (.singleView post (md post.body)),
              flash := some (flash_message "Post updated successfully!" "success"),
              hxPushUrl := none }, st')

/-- `DELETE /posts/<id>` (`delete_post`). -/
def delete_post (st : Store) (post_id : Nat) : Response × Store :=
  let st' : Store := { st with posts := st.posts.filter (fun p => p.id != post_id) }
  ({ status := 200,
     primary := some (.listView (postsWithPreview (listPosts st'))),
     flash := some (flash_message "Post deleted." "success"),
     hxPushUrl := some "/" }, st')

/-- `GET /posts/<id>/confirm-delete` (`confirm_delete`). -/
def confirm_delete (st : Store) (post_id : Nat) : Response :=
  match fetchone st post_id with
  | none => notFoundResponse
  | some post =>
    { status := 200,
      primary := some (.confirmDeleteView post),
      flash := none,
      hxPushUrl := none }

/-- Whitespace-run collapsing, written from the spec's words (§4.3): every
run of whitespace becomes a single space; a trailing run disappears.  The
input is assumed already stripped of leading whitespace by `specCollapse`. -/
def specCollapseCore : List Char → List Char
  | [] => []
  | [c] => if isPySpace c then [] else [c]
  | c :: d :: cs =>
    if isPySpace c then
      if isPySpace d then specCollapseCore (d :: cs)
      else ' ' :: d :: specCollapseCore cs
    else c :: specCollapseCore (d :: cs)

/-- Spec §4.3: collapse all whitespace runs to single spaces and trim both
ends. -/
def specCollapse (l : List Char) : List Char :=
  specCollapseCore (l.dropWhile isPySpace)

/-- The collapsed plain text of a body per the spec's words (§4.3): strip the
literal marker characters and collapse/trim whitespace. -/
def collapsedOf (body : String) : String :=
  String.mk (specCollapse (body.toList.filter
    (fun c => !(c == '#' || c == '*' || c == backquote || c == '>'))))

/-- `preview` as the spec states it (§4.3): character-level marker removal,
whitespace collapsing, then truncation to exactly `max_length` characters
plus a three-dot ellipsis when the collapsed text exceeds `max_length`. -/
def preview_spec (body : String) (max_length : Nat) : String :=
  let collapsed := collapsedOf body
  if collapsed.length > max_length then collapsed.take max_length ++ "..." else collapsed

theorem toList_mk (l : List Char) : (String.mk l).toList = l := rfl

theorem specCollapseCore_cons_not (c : Char) (l : List Char) (hc : isPySpace c = false) :
    specCollapseCore (c :: l) = c :: specCollapseCore l := by
  cases l with
  | nil => simp [specCollapseCore, hc]
  | cons d ds => simp [specCollapseCore, hc]

theorem specCollapseCore_cons_space (l : List Char) :
    ∀ c, isPySpace c = true →
      specCollapseCore (c :: l) =
        if specCollapse l = [] then [] else ' ' :: specCollapse l := by
  induction l with
  | nil => intro c hc; simp [specCollapseCore, specCollapse, hc]
  | cons d ds ih =>
    intro c hc
    by_cases hd : isPySpace d
    · have h1 : specCollapseCore (c :: d :: ds) = specCollapseCore (d :: ds) := by
        simp [specCollapseCore, hc, hd]
      rw [h1, ih d hd]
      have h3 : specCollapse (d :: ds) = specCollapse ds := by
        simp [specCollapse, List.dropWhile_cons, hd]
      rw [h3]
    · have hd' : isPySpace d = false := by simpa using hd
      have h1 : specCollapseCore (c :: d :: ds) = ' ' :: d :: specCollapseCore ds := by
        simp [specCollapseCore, hc, hd']
      have h2 : specCollapse (d :: ds) = d :: specCollapseCore ds := by
        simp [specCollapse, List.dropWhile_cons, hd', specCollapseCore_cons_not d ds hd']
      rw [h1, h2]
      simp

theorem specCollapse_cons_space (c : Char) (l : List Char) (hc : isPySpace c = true) :
    specCollapse (c :: l) = specCollapse l := by
  simp [specCollapse, List.dropWhile_cons, hc]

theorem specCollapse_cons_not (c : Char) (l : List Char) (hc : isPySpace c = false) :
    specCollapse (c :: l) = c :: specCollapseCore l := by
  simp [specCollapse, List.dropWhile_cons, hc, specCollapseCore_cons_not c l hc]

theorem splitChar_ne_nil (l : List Char) : splitChar l ≠ [] := by
  cases l with
  | nil => simp [splitChar]
  | cons c cs =>
    by_cases hc : isPySpace c
    · simp [splitChar, hc]
    · simp only [splitChar, hc, if_neg, Bool.false_eq_true, if_false]
      cases splitChar cs <;> simp

theorem joinSpace_cons_cons (c : Char) (w : List Char) (ws : List (List Char)) :
    joinSpace ((c :: w) :: ws) = c :: joinSpace (w :: ws) := by
  cases ws <;> simp [joinSpace]

theorem joinSpace_ne_nil (w : List Char) (ws : List (List Char)) (hw : w ≠ []) :
    joinSpace (w :: ws) ≠ [] := by
  cases ws <;> simp [joinSpace, hw]

theorem pySplitChars_cons_space (c : Char) (l : List Char) (hc : isPySpace c = true) :
    pySplitChars (c :: l) = pySplitChars l := by
  simp [pySplitChars, splitChar, hc]

theorem pySplitChars_eq_nil_of_join (l : List Char)
    (h : joinSpace (pySplitChars l) = []) : pySplitChars l = [] := by
  cases hp : pySplitChars l with
  | nil => rfl
  | cons w ws =>
    exfalso
    have hw : w ∈ (splitChar l).filter (fun w => !w.isEmpty) := by
      rw [← pySplitChars, hp]; exact List.mem_cons_self w ws
    have hwne : w ≠ [] := by
      have := (List.mem_filter.mp hw).2
      simpa [List.isEmpty_iff] using this
    rw [hp] at h
    exact joinSpace_ne_nil w ws hwne h

theorem join_split_collapse_aux (n : Nat) : ∀ l : List Char, l.length ≤ n →
    (joinSpace (pySplitChars l) = specCollapse l) ∧
    (∀ c, isPySpace c = false →
      joinSpace (pySplitChars (c :: l)) = c :: specCollapseCore l) := by
  induction n with
  | zero =>
    intro l hl
    have hl0 : l = [] := List.length_eq_zero.mp (Nat.le_zero.mp hl)
    subst hl0
    constructor
    · simp [pySplitChars, splitChar, joinSpace, specCollapse, specCollapseCore]
    · intro c hc
      simp [pySplitChars, splitChar, hc, joinSpace, specCollapseCore]
  | succ n ih =>
    intro l hl
    constructor
    · cases l with
      | nil => simp [pySplitChars, splitChar, joinSpace, specCollapse, specCollapseCore]
      | cons c cs =>
        have hcs : cs.length ≤ n := by simpa using Nat.le_of_succ_le_succ (by simpa using hl)
        by_cases hc : isPySpace c
        · rw [pySplitChars_cons_space c cs hc, specCollapse_cons_space c cs hc]
          exact (ih cs hcs).1
        · have hc' : isPySpace c = false := by simpa using hc
          rw [specCollapse_cons_not c cs hc']
          exact (ih cs hcs).2 c hc'
    · intro c hc
      cases l with
      | nil =>
        simp [pySplitChars, splitChar, hc, joinSpace, specCollapseCore]
      | cons d ds =>
        have hds : ds.length ≤ n := by simpa using Nat.le_of_succ_le_succ (by simpa using hl)
        by_cases hd : isPySpace d
        · have hsplit : pySplitChars (c :: d :: ds) = [c] :: pySplitChars ds := by
            simp [pySplitChars, splitChar, hc, hd]
          rw [hsplit, specCollapseCore_cons_space ds d hd]
          by_cases hsc : specCollapse ds = []
          · have hpn : pySplitChars ds = [] :=
              pySplitChars_eq_nil_of_join ds (by rw [(ih ds hds).1, hsc])
            rw [hpn, hsc]
            simp [joinSpace]
          · have hne : pySplitChars ds ≠ [] := by
              intro h0
              exact hsc (by rw [← (ih ds hds).1, h0]; rfl)
            rcases hp : pySplitChars ds with _ | ⟨w, ws⟩
            · exact absurd hp hne
            · have h1 : joinSpace ([c] :: w :: ws) = c :: ' ' :: joinSpace (w :: ws) := by
                simp [joinSpace]
              rw [h1, ← hp, (ih ds hds).1, if_neg hsc]
        · have hd' : isPySpace d = false := by simpa using hd
          rcases hsp : splitChar ds with _ | ⟨w, ws⟩
          · exact absurd hsp (splitChar_ne_nil ds)
          · have hsplit : pySplitChars (c :: d :: ds) =
                (c :: d :: w) :: ws.filter (fun w => !w.isEmpty) := by
              simp [pySplitChars, splitChar, hc, hd', hsp]
            have hsplit2 : pySplitChars (d :: ds) =
                (d :: w) :: ws.filter (fun w => !w.isEmpty) := by
              simp [pySplitChars, splitChar, hd', hsp]
            rw [hsplit, joinSpace_cons_cons, ← hsplit2, (ih ds hds).2 d hd',
              specCollapseCore_cons_not d ds hd']

theorem join_split_collapse (l : List Char) :
    joinSpace (pySplitChars l) = specCollapse l :=
  (join_split_collapse_aux l.length l le_rfl).1

theorem stripped_toList (body : String) :
    (removeChar '>' (removeChar backquote (removeChar '*' (removeChar '#' body)))).toList
      = body.toList.filter
          (fun c => !(c == '#' || c == '*' || c == backquote || c == '>')) := by
  simp only [removeChar, toList_mk]
  rw [List.filter_filter, List.filter_filter, List.filter_filter]
  apply List.filter_congr
  intro c _
  cases hc1 : c == '#' <;> cases hc2 : c == '*' <;> cases hc3 : c == backquote <;>
    cases hc4 : c == '>' <;> simp [bne, hc1, hc2, hc3, hc4]

theorem get_post_preview_eq_spec (body : String) (max_length : Nat) :
    get_post_preview body max_length = preview_spec body max_length := by
  have h : String.mk (joinSpace (pySplitChars
      (removeChar '>' (removeChar backquote
        (removeChar '*' (removeChar '#' body)))).toList)) = collapsedOf body := by
    rw [stripped_toList, join_split_collapse]
    rfl
  simp only [get_post_preview, preview_spec, h]

theorem insertPost_perm (p : Post) (l : List Post) : (insertPost p l).Perm (p :: l) := by
  induction l with
  | nil => simp [insertPost]
  | cons q qs ih =>
    by_cases h : p.created_at < q.created_at
    · rw [insertPost, if_pos h]
      exact (ih.cons q).trans (List.Perm.swap p q qs)
    · rw [insertPost, if_neg h]

theorem orderByCreatedAtDesc_perm (l : List Post) : (orderByCreatedAtDesc l).Perm l := by
  induction l with
  | nil => simp [orderByCreatedAtDesc]
  | cons p ps ih =>
    exact (insertPost_perm p (orderByCreatedAtDesc ps)).trans (ih.cons p)

theorem insertPost_pairwise (p : Post) (l : List Post)
    (h : l.Pairwise (fun a b => b.created_at ≤ a.created_at)) :
    (insertPost p l).Pairwise (fun a b => b.created_at ≤ a.created_at) := by
  induction l with
  | nil => simp [insertPost]
  | cons q qs ih =>
    rcases List.pairwise_cons.mp h with ⟨hq, hqs⟩
    by_cases hlt : p.created_at < q.created_at
    · rw [insertPost, if_pos hlt]
      refine List.pairwise_cons.mpr ⟨?_, ih hqs⟩
      intro x hx
      have hx' : x ∈ p :: qs := (insertPost_perm p qs).mem_iff.mp hx
      rcases List.mem_cons.mp hx' with hxp | hxq
      · subst hxp; exact Nat.le_of_lt hlt
      · exact hq x hxq
    · rw [insertPost, if_neg hlt]
      refine List.pairwise_cons.mpr ⟨?_, h⟩
      intro x hx
      rcases List.mem_cons.mp hx with hxq | hxq
      · subst hxq; exact Nat.le_of_not_lt hlt
      · exact Nat.le_trans (hq x hxq) (Nat.le_of_not_lt hlt)

theorem orderByCreatedAtDesc_pairwise (l : List Post) :
    (orderByCreatedAtDesc l).Pairwise (fun a b => b.created_at ≤ a.created_at) := by
  induction l with
  | nil => simp [orderByCreatedAtDesc]
  | cons p ps ih => exact insertPost_pairwise p (orderByCreatedAtDesc ps) ih

theorem insertPost_filter_created (p : Post) (t : Nat) (l : List Post) :
    (insertPost p l).filter (fun q => q.created_at == t)
      = if p.created_at = t then p :: l.filter (fun q => q.created_at == t)
        else l.filter (fun q => q.created_at == t) := by
  induction l with
  | nil =>
    by_cases hp : p.created_at = t
    · have hp' : (p.created_at == t) = true := beq_iff_eq.mpr hp
      simp [insertPost, List.filter_cons, hp', if_pos hp]
    · have hp' : (p.created_at == t) = false := beq_eq_false_iff_ne.mpr hp
      simp [insertPost, List.filter_cons, hp', if_neg hp]
  | cons q qs ih =>
    by_cases hlt : p.created_at < q.created_at
    · rw [insertPost, if_pos hlt]
      by_cases hp : p.created_at = t
      · have hq' : (q.created_at == t) = false := by
          simp only [beq_eq_false_iff_ne]
          omega
        simp [List.filter_cons, hq', ih, if_pos hp]
      · simp [List.filter_cons, ih, if_neg hp]
    · rw [insertPost, if_neg hlt]
      by_cases hp : p.created_at = t
      · have hp' : (p.created_at == t) = true := beq_iff_eq.mpr hp
        simp [List.filter_cons, hp', if_pos hp]
      · have hp' : (p.created_at == t) = false := beq_eq_false_iff_ne.mpr hp
        simp [List.filter_cons, hp', if_neg hp]

theorem orderByCreatedAtDesc_filter_created (t : Nat) (l : List Post) :
    (orderByCreatedAtDesc l).filter (fun q => q.created_at == t)
      = l.filter (fun q => q.created_at == t) := by
  induction l with
  | nil => simp [orderByCreatedAtDesc]
  | cons p ps ih =>
    rw [orderByCreatedAtDesc, insertPost_filter_created, ih]
    by_cases hp : p.created_at = t
    · have hp' : (p.created_at == t) = true := beq_iff_eq.mpr hp
      simp [List.filter, hp', if_pos hp]
    · have hp' : (p.created_at == t) = false := beq_eq_false_iff_ne.mpr hp
      simp [List.filter, hp', if_neg hp]

theorem find?_updateWhere (i : Nat) (t b : String) (now : Nat) :
    ∀ (l : List Post) (p : Post),
      l.find? (fun q => q.id == i) = some p →
      (updateWhere i t b now l).find? (fun q => q.id == i) = some (updRow t b now p) := by
  intro l
  induction l with
  | nil => intro p hp; simp [List.find?] at hp
  | cons q qs ih =>
    intro p hp
    by_cases hq : q.id = i
    · have hq' : (q.id == i) = true := beq_iff_eq.mpr hq
      rw [List.find?_cons, hq'] at hp
      simp only [cond_true, Option.some.injEq] at hp
      subst hp
      have hmap : updateWhere i t b now (q :: qs)
          = updRow t b now q :: updateWhere i t b now qs := by
        simp [updateWhere, hq, hq']
      rw [hmap, List.find?_cons]
      have hid : ((updRow t b now q).id == i) = true := hq'
      rw [hid]
    · have hq' : (q.id == i) = false := beq_eq_false_iff_ne.mpr hq
      rw [List.find?_cons, hq'] at hp
      simp only [cond_false] at hp
      have hmap : (updateWhere i t b now (q :: qs)) = q :: updateWhere i t b now qs := by
        simp [updateWhere, hq, hq']
      rw [hmap, List.find?_cons, hq']
      exact ih p hp

theorem create_post_invalid (st : Store) (now : Nat) (tf bf : Option String)
    (h : pyStrip (tf.getD "") = "" ∨ pyStrip (bf.getD "") = "") :
    create_post st now tf bf = (validationErrorResponse, st) := by
  simp only [create_post]
  rw [if_pos h]

theorem create_post_valid (st : Store) (now : Nat) (tf bf : Option String)
    (ht : pyStrip (tf.getD "") ≠ "") (hb : pyStrip (bf.getD "") ≠ "") :
    create_post st now tf bf =
      ({ status := 200,
         primary := some (.listView (postsWithPreview (listPosts
           (insertRow st (pyStrip (tf.getD "")) (pyStrip (bf.getD "")) now now)))),
         flash := some (flash_message "Post created successfully!" "success"),
         hxPushUrl := some "/" },
       insertRow st (pyStrip (tf.getD "")) (pyStrip (bf.getD "")) now now) := by
  simp only [create_post]
  rw [if_neg (not_or.mpr ⟨ht, hb⟩)]

theorem update_post_invalid (md : String → String) (st : Store) (now post_id : Nat)
    (tf bf : Option String)
    (h : pyStrip (tf.getD "") = "" ∨ pyStrip (bf.getD "") = "") :
    update_post md st now post_id tf bf = some (validationErrorResponse, st) := by
  simp only [update_post]
  rw [if_pos h]

theorem update_post_valid (md : String → String) (st : Store) (now post_id : Nat)
    (tf bf : Option String)
    (ht : pyStrip (tf.getD "") ≠ "") (hb : pyStrip (bf.getD "") ≠ "") :
    update_post md st now post_id tf bf =
      (match fetchone (Store.mk (updateWhere post_id (pyStrip (tf.getD "")) (pyStrip (bf.getD "")) now st.posts) st.nextId) post_id with
       | none => none
       | some post =>
         some ({ status := 200,
                 primary := some (.singleView post (md post.body)),
                 flash := some (flash_message "Post updated successfully!" "success"),
                 hxPushUrl := none },
               Store.mk (updateWhere post_id (pyStrip (tf.getD "")) (pyStrip (bf.getD "")) now st.posts) st.nextId)) := by
  simp only [update_post]
  rw [if_neg (not_or.mpr ⟨ht, hb⟩)]

/-- Claim C1 (code bug): on an Update whose id refers to no stored post and
whose trimmed title and body are non-empty, the handler does not produce the
claimed 404 error-flash response: it re-fetches the row after the no-op
UPDATE, gets `None`, and indexing it raises an uncaught `TypeError`
(modelled as `none`).  Shown here on the empty store with id 1 and fields
"a"/"b". -/
theorem update_absent_id_crashes :
    update_post (fun s => s) (Store.mk [] 1) 5 1 (some "a") (some "b") = none := by
  decide

/-- Claim C2, counterexample: the store does not reject persistence of empty
fields.  The schema's `NOT NULL` constraints only reject NULL: a direct
insert of empty-string title and body succeeds, producing a state whose
stored row has empty title and body. -/
theorem store_accepts_empty_fields :
    storeInsertRaw (Store.mk [] 1) (some "") (some "") 0 0
        = some (Store.mk [Post.mk 1 "" "" 0 0] 2) ∧
      ¬ noEmptyFields (Store.mk [Post.mk 1 "" "" 0 0] 2) := by
  constructor
  · rfl
  · decide

/-- Claim C2 as amended: the store itself (NOT NULL only) accepts empty
strings, so the non-empty invariant is maintained solely by handler-level
validation: every handler operation preserves the invariant that no stored
row has an empty title or body. -/
theorem handlers_preserve_nonempty_fields (md : String → String) (st : Store)
    (now post_id : Nat) (tf bf : Option String) (hst : noEmptyFields st) :
    noEmptyFields (create_post st now tf bf).2 ∧
    noEmptyFields (delete_post st post_id).2 ∧
    (∀ r st', update_post md st now post_id tf bf = some (r, st') → noEmptyFields st') := by
  refine ⟨?_, ?_, ?_⟩
  · by_cases ht : pyStrip (tf.getD "") = ""
    · rw [create_post_invalid st now tf bf (Or.inl ht)]; exact hst
    · by_cases hb : pyStrip (bf.getD "") = ""
      · rw [create_post_invalid st now tf bf (Or.inr hb)]; exact hst
      · rw [create_post_valid st now tf bf ht hb]
        intro p hp
        rcases List.mem_append.mp hp with hold | hnew
        · exact hst p hold
        · rcases List.mem_singleton.mp hnew with rfl
          exact ⟨ht, hb⟩
  · intro p hp
    exact hst p (List.mem_of_mem_filter hp)
  · intro r st' hupd
    by_cases ht : pyStrip (tf.getD "") = ""
    · rw [update_post_invalid md st now post_id tf bf (Or.inl ht)] at hupd
      simp only [Option.some.injEq, Prod.mk.injEq] at hupd
      rw [← hupd.2]; exact hst
    · by_cases hb : pyStrip (bf.getD "") = ""
      · rw [update_post_invalid md st now post_id tf bf (Or.inr hb)] at hupd
        simp only [Option.some.injEq, Prod.mk.injEq] at hupd
        rw [← hupd.2]; exact hst
      · rw [update_post_valid md st now post_id tf bf ht hb] at hupd
        cases hf : fetchone (Store.mk (updateWhere post_id (pyStrip (tf.getD "")) (pyStrip (bf.getD "")) now st.posts) st.nextId) post_id with
        | none => rw [hf] at hupd; cases hupd
        | some post =>
          rw [hf] at hupd
          simp only [Option.some.injEq, Prod.mk.injEq] at hupd
          rw [← hupd.2]
          intro p hp
          rcases List.mem_map.mp hp with ⟨q, hq, hqp⟩
          by_cases hid : q.id = post_id
          · rw [← hqp]
            simp [hid, updRow, ht, hb]
          · rw [← hqp]
            have hid' : (q.id == post_id) = false := beq_eq_false_iff_ne.mpr hid
            simp only [hid', Bool.false_eq_true, if_false]
            exact hst q hq

theorem handlers_preserve_nonempty_fields_witness :
    noEmptyFields (create_post (Store.mk [] 1) 5 (some "a") (some "b")).2 :=
  (handlers_preserve_nonempty_fields (fun s => s) (Store.mk [] 1) 5 0
    (some "a") (some "b") (by decide)).1

/-- Claim C4: a Create or Update whose title or body is empty after trimming
yields exactly the 422 response whose body is only the error-severity flash
fragment (no primary fragment), leaves the store unchanged, and for Update
this happens uniformly in the target id and the store, i.e. before and
regardless of any existence check. -/
theorem empty_fields_yield_422 (md : String → String) (st : Store)
    (now post_id : Nat) (tf bf : Option String)
    (h : pyStrip (tf.getD "") = "" ∨ pyStrip (bf.getD "") = "") :
    create_post st now tf bf = (validationErrorResponse, st) ∧
    update_post md st now post_id tf bf = some (validationErrorResponse, st) ∧
    validationErrorResponse.status = 422 ∧
    validationErrorResponse.primary = none ∧
    validationErrorResponse.flash = some (Flash.mk "Title and body are required." "error") :=
  ⟨create_post_invalid st now tf bf h, update_post_invalid md st now post_id tf bf h,
    rfl, rfl, rfl⟩

theorem empty_fields_yield_422_witness :
    (pyStrip ((some "  ").getD "") = "" ∨ pyStrip ((some "b").getD "") = "") ∧
    create_post (Store.mk [] 1) 5 (some "  ") (some "b")
      = (validationErrorResponse, Store.mk [] 1) :=
  ⟨by decide,
   (empty_fields_yield_422 (fun s => s) (Store.mk [] 1) 5 0 (some "  ") (some "b")
     (by decide)).1⟩

/-- Claim C10: an entirely absent title or body form field is read as the
empty string, so the request deterministically takes the 422 validation path
(error flash, store unchanged) for both Create and Update; the handlers are
total on absent fields. -/
theorem absent_form_field_validation (md : String → String) (st : Store)
    (now post_id : Nat) (f : Option String) :
    create_post st now none f = (validationErrorResponse, st) ∧
    create_post st now f none = (validationErrorResponse, st) ∧
    update_post md st now post_id none f = some (validationErrorResponse, st) ∧
    update_post md st now post_id f none = some (validationErrorResponse, st) := by
  have hnone : pyStrip ((none : Option String).getD "") = "" := by decide
  exact ⟨create_post_invalid st now none f (Or.inl hnone),
    create_post_invalid st now f none (Or.inr hnone),
    update_post_invalid md st now post_id none f (Or.inl hnone),
    update_post_invalid md st now post_id f none (Or.inr hnone)⟩

/-- Claim C6: Delete is total and idempotent: for every id (present or
absent) it returns the 200 listing of the resulting store with a
success-severity flash and no error, and repeating the same delete leaves
both response and store unchanged. -/
theorem delete_total_and_idempotent (st : Store) (post_id : Nat) :
    (delete_post st post_id).1 =
      { status := 200,
        primary := some (.listView (postsWithPreview (listPosts (delete_post st post_id).2))),
        flash := some (flash_message "Post deleted." "success"),
        hxPushUrl := some "/" } ∧
    delete_post (delete_post st post_id).2 post_id = delete_post st post_id := by
  constructor
  · rfl
  · have hfilter : ((delete_post st post_id).2).posts.filter (fun p => p.id != post_id)
        = ((delete_post st post_id).2).posts := by
      simp only [delete_post, List.filter_filter]
      apply List.filter_congr
      intro p _
      cases hp : p.id == post_id <;> simp [bne, hp]
    simp only [delete_post] at hfilter ⊢
    rw [hfilter]

/-- Claim C9: exactly the successful Create response and the (always
successful) Delete response carry the `HX-Push-Url: /` header; every other
operation's response — List, forms, Show-single, edit, confirm-delete,
Update (success or 422), and the 404/422 failures — carries none. -/
theorem push_url_exactly_create_and_delete (md : String → String) (st : Store)
    (now post_id : Nat) (tf bf : Option String) :
    ((create_post st now tf bf).1.status = 200 →
      (create_post st now tf bf).1.hxPushUrl = some "/") ∧
    ((create_post st now tf bf).1.status ≠ 200 →
      (create_post st now tf bf).1.hxPushUrl = none) ∧
    (delete_post st post_id).1.hxPushUrl = some "/" ∧
    (index st).hxPushUrl = none ∧
    new_post.hxPushUrl = none ∧
    (view_post md st post_id).hxPushUrl = none ∧
    (edit_post st post_id).hxPushUrl = none ∧
    (confirm_delete st post_id).hxPushUrl = none ∧
    (∀ r st', update_post md st now post_id tf bf = some (r, st') →
      r.hxPushUrl = none) := by
  refine ⟨?_, ?_, rfl, rfl, rfl, ?_, ?_, ?_, ?_⟩
  · intro h
    by_cases ht : pyStrip (tf.getD "") = ""
    · rw [create_post_invalid st now tf bf (Or.inl ht)] at h ⊢
      cases h
    · by_cases hb : pyStrip (bf.getD "") = ""
      · rw [create_post_invalid st now tf bf (Or.inr hb)] at h ⊢
        cases h
      · rw [create_post_valid st now tf bf ht hb]
  · intro h
    by_cases ht : pyStrip (tf.getD "") = ""
    · rw [create_post_invalid st now tf bf (Or.inl ht)]; rfl
    · by_cases hb : pyStrip (bf.getD "") = ""
      · rw [create_post_invalid st now tf bf (Or.inr hb)]; rfl
      · rw [create_post_valid st now tf bf ht hb] at h
        exact absurd rfl h
  · unfold view_post
    cases fetchone st post_id <;> rfl
  · unfold edit_post
    cases fetchone st post_id <;> rfl
  · unfold confirm_delete
    cases fetchone st post_id <;> rfl
  · intro r st' hupd
    by_cases ht : pyStrip (tf.getD "") = ""
    · rw [update_post_invalid md st now post_id tf bf (Or.inl ht)] at hupd
      simp only [Option.some.injEq, Prod.mk.injEq] at hupd
      rw [← hupd.1]; rfl
    · by_cases hb : pyStrip (bf.getD "") = ""
      · rw [update_post_invalid md st now post_id tf bf (Or.inr hb)] at hupd
        simp only [Option.some.injEq, Prod.mk.injEq] at hupd
        rw [← hupd.1]; rfl
      · rw [update_post_valid md st now post_id tf bf ht hb] at hupd
        cases hf : fetchone (Store.mk (updateWhere post_id (pyStrip (tf.getD "")) (pyStrip (bf.getD "")) now st.posts) st.nextId) post_id with
        | none => rw [hf] at hupd; cases hupd
        | some post =>
          rw [hf] at hupd
          simp only [Option.some.injEq, Prod.mk.injEq] at hupd
          rw [← hupd.1]

theorem push_url_exactly_create_and_delete_witness :
    (create_post (Store.mk [] 1) 5 (some "a") (some "b")).1.status = 200 ∧
    (create_post (Store.mk [] 1) 5 (some "a") (some "b")).1.hxPushUrl = some "/" :=
  ⟨by decide,
   (push_url_exactly_create_and_delete (fun s => s) (Store.mk [] 1) 5 0
     (some "a") (some "b")).1 (by decide)⟩

/-- Claim C3: the listing returned by List (and embedded in successful
Create and Delete responses) is a permutation of the store's rows ordered by
`created_at` descending with ties kept in insertion (rowid) order, and it is
recomputed from the post-operation store state on every response. -/
theorem listing_sorted_recomputed (st : Store) (now post_id : Nat)
    (tf bf : Option String) :
    (listPosts st).Perm st.posts ∧
    (listPosts st).Pairwise (fun a b => b.created_at ≤ a.created_at) ∧
    (∀ t, (listPosts st).filter (fun p => p.created_at == t)
        = st.posts.filter (fun p => p.created_at == t)) ∧
    (index st).primary = some (.listView (postsWithPreview (listPosts st))) ∧
    ((create_post st now tf bf).1.status = 200 →
      (create_post st now tf bf).1.primary
        = some (.listView (postsWithPreview (listPosts (create_post st now tf bf).2)))) ∧
    (delete_post st post_id).1.primary
      = some (.listView (postsWithPreview (listPosts (delete_post st post_id).2))) := by
  refine ⟨orderByCreatedAtDesc_perm st.posts, orderByCreatedAtDesc_pairwise st.posts,
    fun t => orderByCreatedAtDesc_filter_created t st.posts, rfl, ?_, rfl⟩
  intro h
  by_cases ht : pyStrip (tf.getD "") = ""
  · rw [create_post_invalid st now tf bf (Or.inl ht)] at h; cases h
  · by_cases hb : pyStrip (bf.getD "") = ""
    · rw [create_post_invalid st now tf bf (Or.inr hb)] at h; cases h
    · rw [create_post_valid st now tf bf ht hb]

theorem listing_sorted_recomputed_witness :
    (create_post (Store.mk [] 1) 5 (some "a") (some "b")).1.primary
      = some (.listView (postsWithPreview (listPosts
          (create_post (Store.mk [] 1) 5 (some "a") (some "b")).2))) :=
  (listing_sorted_recomputed (Store.mk [] 1) 5 0 (some "a") (some "b")).2.2.2.2.1 (by decide)

/-- Claim C5: for a valid (title, body) pair, Create followed by Show-single
on the created id returns 200 with the single-post view whose transformed
body is the Markdown transformer applied to the stored body and whose title
is the stored title. -/
theorem create_then_view_roundtrip (md : String → String) (st : Store) (now : Nat)
    (t b : String) (ht : pyStrip t ≠ "") (hb : pyStrip b ≠ "")
    (hfresh : ∀ q ∈ st.posts, q.id ≠ st.nextId) :
    fetchone (create_post st now (some t) (some b)).2 st.nextId
      = some (Post.mk st.nextId (pyStrip t) (pyStrip b) now now) ∧
    view_post md (create_post st now (some t) (some b)).2 st.nextId
      = { status := 200,
          primary := some (.singleView (Post.mk st.nextId (pyStrip t) (pyStrip b) now now)
            (md (pyStrip b))),
          flash := none,
          hxPushUrl := none } := by
  have ht' : pyStrip ((some t).getD "") ≠ "" := ht
  have hb' : pyStrip ((some b).getD "") ≠ "" := hb
  have hfetch : fetchone (create_post st now (some t) (some b)).2 st.nextId
      = some (Post.mk st.nextId (pyStrip t) (pyStrip b) now now) := by
    rw [create_post_valid st now (some t) (some b) ht' hb']
    unfold fetchone insertRow
    simp only []
    rw [List.find?_append]
    have hnone : st.posts.find? (fun p => p.id == st.nextId) = none :=
      List.find?_eq_none.mpr (fun x hx => by simpa using hfresh x hx)
    rw [hnone]
    simp [List.find?]
  refine ⟨hfetch, ?_⟩
  unfold view_post
  rw [hfetch]

theorem create_then_view_roundtrip_witness :
    pyStrip "a" ≠ "" ∧ pyStrip "b" ≠ "" ∧ (∀ q ∈ (Store.mk [] 1).posts, q.id ≠ 1) ∧
    view_post (fun s => s) (create_post (Store.mk [] 1) 5 (some "a") (some "b")).2 1
      = { status := 200,
          primary := some (.singleView (Post.mk 1 (pyStrip "a") (pyStrip "b") 5 5)
            ((fun s => s) (pyStrip "b"))),
          flash := none,
          hxPushUrl := none } :=
  ⟨by decide, by decide, by decide,
   (create_then_view_roundtrip (fun s => s) (Store.mk [] 1) 5 "a" "b"
     (by decide) (by decide) (by decide)).2⟩

/-- Claim C7: `get_post_preview` computes exactly the spec's preview: strip
every occurrence of the four marker characters, collapse whitespace runs to
single spaces and trim the ends, and truncate to exactly `max_length`
characters plus "..." only when the collapsed text exceeds `max_length`; on
the spec's example it yields "Title bold code", and any body whose collapsed
form is shorter than 200 characters is returned collapsed, with no
ellipsis. -/
theorem preview_matches_spec :
    (∀ body max_length, get_post_preview body max_length = preview_spec body max_length) ∧
    get_post_preview "# Title *bold* `code`" 200 = "Title bold code" ∧
    (∀ body, (collapsedOf body).length < 200 →
      get_post_preview body 200 = collapsedOf body) := by
  refine ⟨get_post_preview_eq_spec, by decide, ?_⟩
  intro body hlen
  rw [get_post_preview_eq_spec]
  simp only [preview_spec]
  rw [if_neg (by omega)]

theorem preview_matches_spec_witness :
    (collapsedOf "hi  there").length < 200 ∧
    get_post_preview "hi  there" 200 = collapsedOf "hi  there" :=
  ⟨by decide, preview_matches_spec.2.2 "hi  there" (by decide)⟩

/-- Claim C8: a successful Update of an existing post overwrites exactly the
matching row: `created_at` is unchanged, `updated_at` becomes `now` (which
is ≥ its previous value under a monotone clock), the returned record is the
updated one, and every other row of the store is kept unchanged. -/
theorem update_existing_frame (md : String → String) (st : Store) (now post_id : Nat)
    (t b : String) (p : Post)
    (hp : fetchone st post_id = some p)
    (ht : pyStrip t ≠ "") (hb : pyStrip b ≠ "")
    (hclock : p.updated_at ≤ now) :
    update_post md st now post_id (some t) (some b)
      = some ({ status := 200,
                primary := some (.singleView (updRow (pyStrip t) (pyStrip b) now p)
                  (md (pyStrip b))),
                flash := some (flash_message "Post updated successfully!" "success"),
                hxPushUrl := none },
              Store.mk (updateWhere post_id (pyStrip t) (pyStrip b) now st.posts) st.nextId) ∧
    (updRow (pyStrip t) (pyStrip b) now p).created_at = p.created_at ∧
    (updRow (pyStrip t) (pyStrip b) now p).updated_at = now ∧
    p.updated_at ≤ (updRow (pyStrip t) (pyStrip b) now p).updated_at ∧
    (∀ q ∈ st.posts, q.id ≠ post_id →
      q ∈ updateWhere post_id (pyStrip t) (pyStrip b) now st.posts) := by
  have hfind : fetchone (Store.mk (updateWhere post_id (pyStrip t) (pyStrip b) now st.posts) st.nextId) post_id = some (updRow (pyStrip t) (pyStrip b) now p) :=
    find?_updateWhere post_id (pyStrip t) (pyStrip b) now st.posts p hp
  refine ⟨?_, rfl, rfl, hclock, ?_⟩
  · rw [update_post_valid md st now post_id (some t) (some b) ht hb]
    simp only [Option.getD_some]
    rw [hfind]
    rfl
  · intro q hq hqid
    have hq' : (q.id == post_id) = false := beq_eq_false_iff_ne.mpr hqid
    exact List.mem_map.mpr ⟨q, hq, by simp [hq', Bool.false_eq_true, hqid]⟩

theorem update_existing_frame_witness :
    fetchone (Store.mk [Post.mk 1 "x" "y" 2 3] 2) 1 = some (Post.mk 1 "x" "y" 2 3) ∧
    pyStrip "a" ≠ "" ∧ pyStrip "b" ≠ "" ∧ (3 : Nat) ≤ 7 ∧
    update_post (fun s => s) (Store.mk [Post.mk 1 "x" "y" 2 3] 2) 7 1 (some "a") (some "b")
      = some ({ status := 200,
                primary := some (.singleView
                  (updRow (pyStrip "a") (pyStrip "b") 7 (Post.mk 1 "x" "y" 2 3))
                  ((fun s => s) (pyStrip "b"))),
                flash := some (flash_message "Post updated successfully!" "success"),
                hxPushUrl := none },
              Store.mk (updateWhere 1 (pyStrip "a") (pyStrip "b") 7
                [Post.mk 1 "x" "y" 2 3]) 2) :=
  ⟨by decide, by decide, by decide, by decide,
   (update_existing_frame (fun s => s) (Store.mk [Post.mk 1 "x" "y" 2 3] 2) 7 1 "a" "b"
     (Post.mk 1 "x" "y" 2 3) (by decide) (by decide) (by decide) (by decide)).1⟩

end HtmxBlog
